import Mathlib

/-!
A verification development for the CI build pipeline (`ci/main.go`)

The program is an orchestration script over the Dagger client.  Values of the
client types (`*dagger.Container`, `*dagger.Directory`, `*dagger.File`) are
lazy descriptions: every method call extends a chain of operations, and only
`Connect`, `Export`, `Publish` and `Close` talk to the engine.  The embedding
keeps exactly that split:

* the client values are first-order terms, one constructor per method the
  program calls;
* the engine calls are recorded as a list of `Event`s, and the answers of the
  engine are supplied by an `Engine` record.
-/

set_option autoImplicit false

namespace CI

/-! ## Client values -/

/-- The result of `client.CacheVolume(key)`. -/
structure CacheVolume where
  key : String
  deriving DecidableEq, Repr

/-- The result of `client.SetSecret(name, plaintext)`. -/
structure Secret where
  name : String
  plaintext : String
  deriving DecidableEq, Repr

mutual
/-- The chain of operations behind a `*dagger.Container`. -/
inductive Container where
  /-- The call `client.Container(dagger.ContainerOpts{Platform: p})`; `none` when no option is given. -/
  | new (platform : Option String)
  | from_ (c : Container) (address : String)
  | withDirectory (c : Container) (path : String) (d : Directory)
  | withWorkdir (c : Container) (path : String)
  | withMountedCache (c : Container) (path : String) (cache : CacheVolume)
  | withEnvVariable (c : Container) (name value : String)
  | withExec (c : Container) (args : List String)
  | withFile (c : Container) (path : String) (f : File)
  | withEntrypoint (c : Container) (args : List String)
  | withLabel (c : Container) (name value : String)
  | withRegistryAuth (c : Container) (address username : String) (secret : Secret)
/-- The chain of operations behind a `*dagger.Directory`. -/
inductive Directory where
  /-- The call `client.Directory()`: an empty directory. -/
  | new
  /-- The call `client.Host().Directory(path)`. -/
  | host (path : String)
  | withFile (d : Directory) (path : String) (f : File)
/-- The chain of operations behind a `*dagger.File`. -/
inductive File where
  /-- The call `container.File(path)`. -/
  | ofContainer (c : Container) (path : String)
  /-- The call `directory.File(path)`. -/
  | ofDirectory (d : Directory) (path : String)
end

/-! ## Observations on client values -/

/-- The entries of a directory built with `client.Directory()` and `WithFile`:
`WithFile(path, f)` puts `f` at `path`, replacing an earlier entry of that name.
A host directory is not enumerated. -/
def Directory.entries : Directory → List (String × File)
  | .new => []
  | .host _ => []
  | .withFile d path f => (d.entries.filter (fun e => e.1 != path)) ++ [(path, f)]

/-- The file a `Directory.entries` list holds under a name. -/
def lookupEntry (es : List (String × File)) (name : String) : Option File :=
  (es.find? (fun e => e.1 == name)).map Prod.snd

/-- The labels attached by `WithLabel`, in the order of the calls. -/
def Container.labels : Container → List (String × String)
  | .new _ => []
  | .from_ c _ => c.labels
  | .withDirectory c _ _ => c.labels
  | .withWorkdir c _ => c.labels
  | .withMountedCache c _ _ => c.labels
  | .withEnvVariable c _ _ => c.labels
  | .withExec c _ => c.labels
  | .withFile c _ _ => c.labels
  | .withEntrypoint c _ => c.labels
  | .withLabel c name value => c.labels ++ [(name, value)]
  | .withRegistryAuth c _ _ _ => c.labels

/-- The registry credentials attached by `WithRegistryAuth`, in the order of the calls. -/
def Container.registryAuths : Container → List (String × String × Secret)
  | .new _ => []
  | .from_ c _ => c.registryAuths
  | .withDirectory c _ _ => c.registryAuths
  | .withWorkdir c _ => c.registryAuths
  | .withMountedCache c _ _ => c.registryAuths
  | .withEnvVariable c _ _ => c.registryAuths
  | .withExec c _ => c.registryAuths
  | .withFile c _ _ => c.registryAuths
  | .withEntrypoint c _ => c.registryAuths
  | .withLabel c _ _ => c.registryAuths
  | .withRegistryAuth c address username secret => c.registryAuths ++ [(address, username, secret)]

/-! ## Binary builder -/

def buildImageName : String := "golang:1.20"
def buildBinary : String := "main"
def buildGOOSs : List String := ["linux", "darwin", "windows"]
def buildGOARCHs : List String := ["amd64", "arm64"]

/-- The call `path.Join(a, b)` for two non-empty elements that are already
clean (no empty, `.` or `..` component and no doubled or trailing slash), which
is how `buildBinaries` uses it: the elements joined by one slash. -/
def pathJoin (a b : String) : String := a ++ "/" ++ b

/-- The shared build environment of `buildBinaries` (lines 70-76). -/
def buildContainer : Container :=
  (((((Container.new none).from_ buildImageName).withDirectory "/src" (Directory.host ".")).withWorkdir
    "/src").withMountedCache "/go/mod" ⟨"go-mod"⟩).withEnvVariable "GOMODCACHE" "/go/mod"
    |>.withEnvVariable "CGO_ENABLED" "0"

/-- The body of the inner loop of `buildBinaries` (lines 80-95) for one `goos`, `goarch`. -/
def buildOne (dst : Directory) (goos goarch : String) : Directory :=
  let goBuildCache : CacheVolume := ⟨"go-build-" ++ goos ++ "-" ++ goarch⟩
  let filename := buildBinary ++ "-" ++ goos ++ "-" ++ goarch
  let out := pathJoin "build" filename
  let out := if goos == "windows" then out ++ ".exe" else out
  let build := ((((buildContainer.withMountedCache "/go/build" goBuildCache).withEnvVariable
    "GOCACHE" "/go/build").withEnvVariable "GOOS" goos).withEnvVariable "GOARCH" goarch).withExec
    ["go", "build", "-o", out]
  dst.withFile filename (File.ofContainer build out)

/-- The function `buildBinaries`: the two nested `range` loops over `buildGOOSs`
and `buildGOARCHs`, starting from the empty directory.  Its error result is
always `nil` and is left out. -/
def buildBinaries : Directory :=
  buildGOOSs.foldl (fun dst goos => buildGOARCHs.foldl (fun dst goarch => buildOne dst goos goarch) dst)
    Directory.new

/-! ## Image assembler -/

def imagePlatforms : List String := ["linux/amd64", "linux/arm64"]

/-- The Go call `strings.Split(s, string(sep))` on the characters of `s`. -/
def splitChars (sep : Char) : List Char → List (List Char)
  | [] => [[]]
  | c :: cs =>
    if c = sep then [] :: splitChars sep cs
    else
      match splitChars sep cs with
      | [] => [[c]]
      | p :: ps => (c :: p) :: ps

/-- The component pattern `^[A-Za-z0-9_-]+$` of the platform specifier parser. -/
def specifierOk (part : List Char) : Bool :=
  !part.isEmpty && part.all (fun c => c.isAlphanum || c = '_' || c = '-')

/-- Modelled from the spec: the architecture normalisation of the platform
parser behind `architectureOf`, a library that is not part of the repository
(the spec: "Maps each publish platform to its architecture identifier").  The
architecture and variant are lower-cased and the usual aliases are folded. -/
def normalizeArch (arch variant : String) : String × String :=
  let arch := String.mk (arch.data.map Char.toLower)
  let variant := String.mk (variant.data.map Char.toLower)
  if arch = "i386" then ("386", "")
  else if arch = "x86_64" ∨ arch = "x86-64" ∨ arch = "amd64" then
    ("amd64", if variant = "v1" then "" else variant)
  else if arch = "aarch64" ∨ arch = "arm64" then
    ("arm64", if variant = "8" ∨ variant = "v8" then "" else variant)
  else if arch = "armhf" then ("arm", "v7")
  else if arch = "armel" then ("arm", "v6")
  else if arch = "arm" then
    ("arm",
      if variant = "" ∨ variant = "7" then "v7"
      else if variant = "5" ∨ variant = "6" ∨ variant = "8" then "v" ++ variant
      else variant)
  else (arch, variant)

/-- Modelled from the spec: the platform specifier parser behind
`architectureOf`, a library that is not part of the repository, for the
specifiers `os/arch` and `os/arch/variant`; the result is the architecture
field.  `none` stands for the panic of `MustParse` on a specifier it rejects.
A one-component specifier is resolved against the host the program runs on and
is not modelled: it is `none` here too. -/
def parseArchitecture (specifier : String) : Option String :=
  if specifier.data.contains '*' then none
  else
    let parts := splitChars '/' specifier.data
    if !parts.all specifierOk then none
    else
      match parts with
      | [_, arch] => some (normalizeArch (String.mk arch) "").1
      | [_, arch, variant] => some (normalizeArch (String.mk arch) (String.mk variant)).1
      | _ => none

/-- The function `architectureOf`: `platformFormat.MustParse(string(platform)).Architecture`. -/
def architectureOf (platform : String) : Option String :=
  parseArchitecture platform

/-- The body of the loop of `buildImages` (lines 111-113) for one platform. -/
def buildImage (build : Directory) (imagePlatform : String) : Option Container :=
  (architectureOf imagePlatform).map fun arch =>
    ((Container.new (some imagePlatform)).withFile "/main"
      (File.ofDirectory build ("main-linux-" ++ arch))).withEntrypoint ["/main"]

/-- The loop of `buildImages` over the platforms still to do, appending to `platformVariants`. -/
def buildImagesLoop (build : Directory) : List String → List Container → Option (List Container)
  | [], platformVariants => some platformVariants
  | imagePlatform :: rest, platformVariants =>
    match buildImage build imagePlatform with
    | none => none
    | some container => buildImagesLoop build rest (platformVariants ++ [container])

/-- The function `buildImages`.  Its error result is always `nil` and is left
out; `none` stands for a panic of `architectureOf`. -/
def buildImages (build : Directory) : Option (List Container) :=
  buildImagesLoop build imagePlatforms []

/-! ## Publisher -/

/-- The package-level variables read from the environment at start-up (lines 119-129). -/
structure Env where
  ciProjectName : String
  ciProjectURL : String
  ciCommitSHA : String
  ciCommitBranch : String
  ciDefaultBranch : String
  ciRegistry : String
  ciRegistryUser : String
  ciRegistryPassword : String
  ciRegistryImage : String
  deriving DecidableEq, Repr

/-- What the program asks of the outside world, in the order it asks. -/
inductive Event where
  /-- The call `log.Println` or `log.Printf` with its format and arguments. -/
  | log (format : String) (args : List String)
  /-- The call `dagger.Connect`. -/
  | connect
  /-- The deferred `client.Close()`. -/
  | close
  /-- The call `directory.Export(ctx, path)`. -/
  | exportDirectory (d : Directory) (path : String)
  /-- The call `container.Export(ctx, path, opts)` with `opts.PlatformVariants`. -/
  | exportContainer (c : Container) (path : String) (platformVariants : List Container)
  /-- The call `container.Publish(ctx, address, opts)` with `opts.PlatformVariants`. -/
  | publish (c : Container) (address : String) (platformVariants : List Container)

/-- The answers of the engine.  An error is its message; `none` is the Go `nil`.
The answer to a publish request may depend on how many publish requests came
before it (the first argument), so that one request can fail after others
succeeded. -/
structure Engine where
  connect : Option String
  exportDirectory : Directory → String → Option String
  exportContainer : Container → String → List Container → Option String
  publish : Nat → Container → String → List Container → Except String String

/-- The container `pushImages` exports or publishes (lines 132-149); `now` is
the value of `time.Now().String()`. -/
def pushContainer (env : Env) (now : String) : Container :=
  let container := (Container.new none).withLabel "org.opencontainers.image.created" now
  let container :=
    if env.ciProjectName != "" then container.withLabel "org.opencontainers.image.title" env.ciProjectName
    else container
  let container :=
    if env.ciProjectURL != "" then container.withLabel "org.opencontainers.image.source" env.ciProjectURL
    else container
  let container :=
    if env.ciCommitSHA != "" then container.withLabel "org.opencontainers.image.revision" env.ciCommitSHA
    else container
  if env.ciRegistry != "" && env.ciRegistryUser != "" && env.ciRegistryPassword != "" then
    let ciRegistryPasswordSecret : Secret := ⟨"ci_registry_password", env.ciRegistryPassword⟩
    container.withRegistryAuth env.ciRegistry env.ciRegistryUser ciRegistryPasswordSecret
  else container

/-- The tag list `pushImages` computes (lines 158-166). -/
def pushTags (env : Env) : List String :=
  let tags := [env.ciRegistryImage ++ ":" ++ env.ciCommitSHA]
  let tags := if env.ciCommitBranch != "" then tags ++ [env.ciRegistryImage ++ ":" ++ env.ciCommitBranch] else tags
  let tags := if env.ciCommitBranch == env.ciDefaultBranch then tags ++ [env.ciRegistryImage ++ ":latest"] else tags
  tags

/-- The publish loop of `pushImages` (lines 168-178) over the tags still to do;
`n` counts the publish requests made so far. -/
def publishLoop (eng : Engine) (env : Env) (container : Container) (platformVariants : List Container) :
    List String → Nat → List Event × Option String
  | [], _ => ([], none)
  | tag :: rest, n =>
    match eng.publish n container env.ciRegistryImage platformVariants with
    | .error err => ([Event.publish container env.ciRegistryImage platformVariants], some err)
    | .ok digest =>
      let r := publishLoop eng env container platformVariants rest (n + 1)
      (Event.publish container env.ciRegistryImage platformVariants ::
        Event.log "Image digest for tag %q: %q" [tag, digest] :: r.1, r.2)

/-- The function `pushImages`: the events it causes and the error it returns. -/
def pushImages (eng : Engine) (env : Env) (now : String) (platformVariants : List Container) :
    List Event × Option String :=
  let container := pushContainer env now
  if env.ciRegistryImage == "" then
    ([Event.exportContainer container "./build/image.tar" platformVariants],
      eng.exportContainer container "./build/image.tar" platformVariants)
  else
    publishLoop eng env container platformVariants (pushTags env) 0

/-! ## Pipeline -/

/-- How a run of `build` ends: it returns an error value (`none` is `nil`), or it panics. -/
inductive Outcome where
  | returned (err : Option String)
  | panicked
  deriving DecidableEq, Repr

/-- The function `build`: the events it causes and how it ends. -/
def build (eng : Engine) (env : Env) (now : String) : List Event × Outcome :=
  let start := [Event.log "Building with Dagger" [], Event.connect]
  match eng.connect with
  | some err => (start, .returned (some err))
  | none =>
    let binaries := buildBinaries
    match eng.exportDirectory binaries "./build" with
    | some err => (start ++ [Event.exportDirectory binaries "./build", Event.close], .returned (some err))
    | none =>
      match buildImages binaries with
      | none => (start ++ [Event.exportDirectory binaries "./build", Event.close], .panicked)
      | some images =>
        let r := pushImages eng env now images
        (start ++ [Event.exportDirectory binaries "./build"] ++ r.1 ++ [Event.close], .returned r.2)

/-- The publish requests among the events, each as its registry address. -/
def publishAddresses : List Event → List String
  | [] => []
  | Event.publish _ address _ :: rest => address :: publishAddresses rest
  | _ :: rest => publishAddresses rest

/-- An engine that accepts every request and answers every publish with the same digest. -/
def okEngine : Engine :=
  { connect := none
    exportDirectory := fun _ _ => none
    exportContainer := fun _ _ _ => none
    publish := fun _ _ _ _ => .ok "sha256:0" }

/-- An environment with a registry image, on a feature branch. -/
def featureEnv : Env :=
  { ciProjectName := "app", ciProjectURL := "https://example.com/app", ciCommitSHA := "abc123",
    ciCommitBranch := "feature-x", ciDefaultBranch := "main", ciRegistry := "registry.example.com",
    ciRegistryUser := "ci", ciRegistryPassword := "hunter2",
    ciRegistryImage := "registry.example.com/app" }

/-- An environment with a registry image, on the default branch. -/
def mainEnv : Env :=
  { featureEnv with ciCommitBranch := "main" }

/-- An environment without a registry image and without credentials. -/
def localEnv : Env :=
  { ciProjectName := "", ciProjectURL := "", ciCommitSHA := "abc123", ciCommitBranch := "main",
    ciDefaultBranch := "main", ciRegistry := "", ciRegistryUser := "", ciRegistryPassword := "",
    ciRegistryImage := "" }

/-- The images `build` hands to `pushImages`. -/
def builtImages : List Container :=
  (buildImages buildBinaries).getD []

/-- An engine whose second publish request fails. -/
def secondPublishFails : Engine :=
  { okEngine with publish := fun n _ _ _ => if n = 1 then .error "denied" else .ok "sha256:0" }

/-- An engine that refuses the connection. -/
def noConnection : Engine :=
  { okEngine with connect := some "connection refused" }

/-- An engine on which the export of the binaries fails. -/
def noDirectoryExport : Engine :=
  { okEngine with exportDirectory := fun _ _ => some "read-only file system" }

/-! ## Helper lemmas -/

theorem pushTags_cons (env : Env) :
    ∃ rest, pushTags env = (env.ciRegistryImage ++ ":" ++ env.ciCommitSHA) :: rest := by
  unfold pushTags
  dsimp only
  split_ifs <;> exact ⟨_, rfl⟩

/-- If the request with index `n + k` is the first the engine refuses, the loop
makes `k + 1` publish requests, all to the registry image reference, and returns
the error of the last. -/
theorem publishLoop_fail (eng : Engine) (env : Env) (c : Container) (pv : List Container) (e : String) :
    ∀ (tags : List String) (n k : Nat), k < tags.length →
      (∀ j, j < k → ∃ d, eng.publish (n + j) c env.ciRegistryImage pv = .ok d) →
      eng.publish (n + k) c env.ciRegistryImage pv = .error e →
      publishAddresses (publishLoop eng env c pv tags n).1 = List.replicate (k + 1) env.ciRegistryImage ∧
        (publishLoop eng env c pv tags n).2 = some e := by
  intro tags
  induction tags with
  | nil => intro n k hk; simp at hk
  | cons tag rest ih =>
    intro n k hk hok hfail
    cases k with
    | zero =>
      simp only [Nat.add_zero] at hfail
      simp [publishLoop, hfail, publishAddresses]
    | succ k =>
      obtain ⟨d, hd⟩ := hok 0 (Nat.succ_pos k)
      simp only [Nat.add_zero] at hd
      have hk2 : k < rest.length := by simpa using hk
      have hok2 : ∀ j, j < k → ∃ d, eng.publish (n + 1 + j) c env.ciRegistryImage pv = .ok d := by
        intro j hj
        have := hok (j + 1) (Nat.succ_lt_succ hj)
        rwa [show n + (j + 1) = n + 1 + j by omega] at this
      have hfail2 : eng.publish (n + 1 + k) c env.ciRegistryImage pv = .error e := by
        rwa [show n + (k + 1) = n + 1 + k by omega] at hfail
      obtain ⟨h1, h2⟩ := ih (n + 1) k hk2 hok2 hfail2
      simp [publishLoop, hd, publishAddresses, h1, h2, List.replicate_succ]

/-- If the engine accepts every request, the loop makes one publish request per
tag, all to the registry image reference, logs the tags in order, and returns `nil`. -/
theorem publishLoop_ok (eng : Engine) (env : Env) (c : Container) (pv : List Container) :
    ∀ (tags : List String) (n : Nat),
      (∀ j, j < tags.length → ∃ d, eng.publish (n + j) c env.ciRegistryImage pv = .ok d) →
      publishAddresses (publishLoop eng env c pv tags n).1 = List.replicate tags.length env.ciRegistryImage ∧
        (publishLoop eng env c pv tags n).2 = none := by
  intro tags
  induction tags with
  | nil => intro n _; simp [publishLoop, publishAddresses]
  | cons tag rest ih =>
    intro n hok
    obtain ⟨d, hd⟩ := hok 0 (by simp)
    simp only [Nat.add_zero] at hd
    have hok2 : ∀ j, j < rest.length → ∃ d, eng.publish (n + 1 + j) c env.ciRegistryImage pv = .ok d := by
      intro j hj
      have := hok (j + 1) (by simpa using hj)
      rwa [show n + (j + 1) = n + 1 + j by omega] at this
    obtain ⟨h1, h2⟩ := ih (n + 1) hok2
    simp [publishLoop, hd, publishAddresses, h1, h2, List.replicate_succ]

theorem buildImages_buildBinaries : buildImages buildBinaries = some builtImages := by
  rfl

/-- With a non-empty registry image reference and an engine that accepts every
publish request, `pushImages` makes as many publish requests as there are
tags, every one of them to the bare registry image reference, and returns `nil`. -/
theorem pushImages_addresses_when_accepted (eng : Engine) (env : Env) (now : String) (pv : List Container)
    (hI : env.ciRegistryImage ≠ "")
    (hok : ∀ j, j < (pushTags env).length →
      ∃ d, eng.publish j (pushContainer env now) env.ciRegistryImage pv = .ok d) :
    publishAddresses (pushImages eng env now pv).1 =
        List.replicate (pushTags env).length env.ciRegistryImage ∧
      (pushImages eng env now pv).2 = none := by
  have h := publishLoop_ok eng env (pushContainer env now) pv (pushTags env) 0
    (fun j hj => by simpa using hok j hj)
  simpa [pushImages, hI] using h

/-! ## The claims -/

/-- C1: in `pushImages` with a non-empty registry image reference `I`, the tag
list is `I:sha`, then `I:branch` exactly when the branch is non-empty, then
`I:latest` exactly when the branch equals the default branch, in that order and
nothing else, and it is the list the publish loop runs over.  With sha `abc123`,
branch `feature-x` and default `main` it is `[I:abc123, I:feature-x]`; with
branch and default both `main` it is `[I:abc123, I:main, I:latest]`. -/
theorem pushImages_tag_list (eng : Engine) (env : Env) (now : String) (pv : List Container)
    (hI : env.ciRegistryImage ≠ "") :
    pushTags env =
        [env.ciRegistryImage ++ ":" ++ env.ciCommitSHA] ++
          (if env.ciCommitBranch = "" then [] else [env.ciRegistryImage ++ ":" ++ env.ciCommitBranch]) ++
          (if env.ciCommitBranch = env.ciDefaultBranch then [env.ciRegistryImage ++ ":latest"] else []) ∧
      pushImages eng env now pv = publishLoop eng env (pushContainer env now) pv (pushTags env) 0 ∧
      (env.ciCommitSHA = "abc123" → env.ciCommitBranch = "feature-x" → env.ciDefaultBranch = "main" →
        pushTags env = [env.ciRegistryImage ++ ":" ++ "abc123", env.ciRegistryImage ++ ":" ++ "feature-x"]) ∧
      (env.ciCommitSHA = "abc123" → env.ciCommitBranch = "main" → env.ciDefaultBranch = "main" →
        pushTags env = [env.ciRegistryImage ++ ":" ++ "abc123", env.ciRegistryImage ++ ":" ++ "main",
          env.ciRegistryImage ++ ":latest"]) := by
  refine ⟨?_, ?_, ?_, ?_⟩
  · unfold pushTags
    dsimp only
    split_ifs <;> simp_all
  · simp [pushImages, hI]
  · intro hs hb hd
    simp [pushTags, hs, hb, hd]
  · intro hs hb hd
    simp [pushTags, hs, hb, hd]

theorem pushImages_tag_list_witness :
    featureEnv.ciRegistryImage ≠ "" ∧
      pushTags featureEnv = ["registry.example.com/app:abc123", "registry.example.com/app:feature-x"] ∧
      pushTags mainEnv =
        ["registry.example.com/app:abc123", "registry.example.com/app:main", "registry.example.com/app:latest"] :=
  ⟨by decide,
    (pushImages_tag_list okEngine featureEnv "2023-03-01 12:00:00 +0000 UTC" builtImages (by decide)).2.2.1
      rfl rfl rfl,
    (pushImages_tag_list okEngine mainEnv "2023-03-01 12:00:00 +0000 UTC" builtImages (by decide)).2.2.2
      rfl rfl rfl⟩

/-- C2: evaluation of `pushImages` on the feature-branch environment with an
engine that accepts everything: two publish requests are made, one per tag, but
both go to the bare registry image reference, not to the tags
`registry.example.com/app:abc123` and `registry.example.com/app:feature-x`;
the tags only reach the log lines. -/
theorem pushImages_publishes_to_image_reference :
    pushTags featureEnv = ["registry.example.com/app:abc123", "registry.example.com/app:feature-x"] ∧
      (pushImages okEngine featureEnv "2023-03-01 12:00:00 +0000 UTC" builtImages).1 =
        [Event.publish (pushContainer featureEnv "2023-03-01 12:00:00 +0000 UTC") "registry.example.com/app"
            builtImages,
          Event.log "Image digest for tag %q: %q" ["registry.example.com/app:abc123", "sha256:0"],
          Event.publish (pushContainer featureEnv "2023-03-01 12:00:00 +0000 UTC") "registry.example.com/app"
            builtImages,
          Event.log "Image digest for tag %q: %q" ["registry.example.com/app:feature-x", "sha256:0"]] ∧
      publishAddresses (pushImages okEngine featureEnv "2023-03-01 12:00:00 +0000 UTC" builtImages).1 =
        ["registry.example.com/app", "registry.example.com/app"] ∧
      publishAddresses (pushImages okEngine featureEnv "2023-03-01 12:00:00 +0000 UTC" builtImages).1 ≠
        pushTags featureEnv := by
  refine ⟨by decide, rfl, by decide, by decide⟩

/-- C3: evaluation of `buildBinaries`: the directory it returns has six entries,
one per pair of operating system and architecture, each named
`main-<os>-<arch>`; the two windows entries carry no `.exe` suffix, which is
only put on the compiler output path inside the build container. -/
theorem buildBinaries_entry_names :
    buildBinaries.entries.map Prod.fst =
        ["main-linux-amd64", "main-linux-arm64", "main-darwin-amd64", "main-darwin-arm64",
          "main-windows-amd64", "main-windows-arm64"] ∧
      "main-windows-amd64.exe" ∉ buildBinaries.entries.map Prod.fst ∧
      "main-windows-arm64.exe" ∉ buildBinaries.entries.map Prod.fst ∧
      lookupEntry buildBinaries.entries "main-windows-amd64" =
        some (File.ofContainer
          (((((buildContainer.withMountedCache "/go/build" ⟨"go-build-windows-amd64"⟩).withEnvVariable
            "GOCACHE" "/go/build").withEnvVariable "GOOS" "windows").withEnvVariable "GOARCH" "amd64").withExec
            ["go", "build", "-o", "build/main-windows-amd64.exe"])
          "build/main-windows-amd64.exe") := by
  refine ⟨by decide, by decide, by decide, rfl⟩

/-- C4: with an empty registry image reference, `pushImages` makes exactly one
engine request, the export of its container to `./build/image.tar` with the
given platform variants, makes no publish request, and returns what that export
returned, whatever the other fields of the environment are. -/
theorem pushImages_without_registry_image (eng : Engine) (env : Env) (now : String) (pv : List Container)
    (hI : env.ciRegistryImage = "") :
    (pushImages eng env now pv).1 = [Event.exportContainer (pushContainer env now) "./build/image.tar" pv] ∧
      publishAddresses (pushImages eng env now pv).1 = [] ∧
      (pushImages eng env now pv).2 = eng.exportContainer (pushContainer env now) "./build/image.tar" pv := by
  simp [pushImages, hI, publishAddresses]

theorem pushImages_without_registry_image_witness :
    localEnv.ciRegistryImage = "" ∧
      (pushImages okEngine localEnv "2023-03-01 12:00:00 +0000 UTC" builtImages).1 =
        [Event.exportContainer (pushContainer localEnv "2023-03-01 12:00:00 +0000 UTC") "./build/image.tar"
          builtImages] ∧
      (pushImages okEngine localEnv "2023-03-01 12:00:00 +0000 UTC" builtImages).2 = none :=
  ⟨rfl,
    (pushImages_without_registry_image okEngine localEnv "2023-03-01 12:00:00 +0000 UTC" builtImages rfl).1,
    (pushImages_without_registry_image okEngine localEnv "2023-03-01 12:00:00 +0000 UTC" builtImages rfl).2.2⟩

/-- C5: in `pushImages` with a non-empty registry image reference, if the
`k`-th publish request (counting from one) is the first the engine refuses,
then exactly `k` publish requests are made and `pushImages` returns the error
of that request; with `k = 1` a single request is made. -/
theorem pushImages_first_failure_stops (eng : Engine) (env : Env) (now : String) (pv : List Container)
    (k : Nat) (e : String) (hI : env.ciRegistryImage ≠ "") (hk : 0 < k) (hlen : k ≤ (pushTags env).length)
    (hok : ∀ j, j + 1 < k → ∃ d, eng.publish j (pushContainer env now) env.ciRegistryImage pv = .ok d)
    (hfail : eng.publish (k - 1) (pushContainer env now) env.ciRegistryImage pv = .error e) :
    (publishAddresses (pushImages eng env now pv).1).length = k ∧
      (pushImages eng env now pv).2 = some e := by
  obtain ⟨k, rfl⟩ : ∃ m, k = m + 1 := ⟨k - 1, by omega⟩
  have h := publishLoop_fail eng env (pushContainer env now) pv e (pushTags env) 0 k (by omega)
    (fun j hj => by simpa using hok j (by omega)) (by simpa using hfail)
  simp only [pushImages, beq_iff_eq, hI, if_false]
  exact ⟨by rw [h.1]; simp, h.2⟩

theorem pushImages_first_failure_stops_witness :
    (publishAddresses (pushImages secondPublishFails mainEnv "2023-03-01 12:00:00 +0000 UTC" builtImages).1).length
        = 2 ∧
      (pushTags mainEnv).length = 3 ∧
      (pushImages secondPublishFails mainEnv "2023-03-01 12:00:00 +0000 UTC" builtImages).2 = some "denied" :=
  ⟨(pushImages_first_failure_stops secondPublishFails mainEnv "2023-03-01 12:00:00 +0000 UTC" builtImages 2
      "denied" (by decide) (by decide) (by decide)
      (fun j hj => ⟨"sha256:0", by
        have h0 : j = 0 := by omega
        subst h0
        rfl⟩) rfl).1,
    by decide,
    (pushImages_first_failure_stops secondPublishFails mainEnv "2023-03-01 12:00:00 +0000 UTC" builtImages 2
      "denied" (by decide) (by decide) (by decide)
      (fun j hj => ⟨"sha256:0", by
        have h0 : j = 0 := by omega
        subst h0
        rfl⟩) rfl).2⟩

/-- C6: the container of `pushImages` carries registry credentials exactly when
registry host, user and password are all non-empty, and then exactly one set:
that host, that user and the secret made from that password; in either case the
first engine request of `pushImages` is the export (empty registry image
reference) or the publish of that container. -/
theorem pushImages_registry_auth (eng : Engine) (env : Env) (now : String) (pv : List Container) :
    (pushContainer env now).registryAuths =
        (if env.ciRegistry ≠ "" ∧ env.ciRegistryUser ≠ "" ∧ env.ciRegistryPassword ≠ "" then
          [(env.ciRegistry, env.ciRegistryUser, Secret.mk "ci_registry_password" env.ciRegistryPassword)]
        else []) ∧
      ∃ rest, (pushImages eng env now pv).1 =
        (if env.ciRegistryImage = "" then
          Event.exportContainer (pushContainer env now) "./build/image.tar" pv
        else Event.publish (pushContainer env now) env.ciRegistryImage pv) :: rest := by
  constructor
  · unfold pushContainer
    dsimp only
    split_ifs <;> simp_all [Container.registryAuths]
  · by_cases hI : env.ciRegistryImage = ""
    · exact ⟨[], by simp [pushImages, hI]⟩
    · obtain ⟨tl, htl⟩ := pushTags_cons env
      simp only [pushImages, beq_iff_eq, hI, if_false, htl]
      cases hp : eng.publish 0 (pushContainer env now) env.ciRegistryImage pv with
      | error err => exact ⟨[], by simp [publishLoop, hp]⟩
      | ok digest =>
        refine ⟨Event.log "Image digest for tag %q: %q" [env.ciRegistryImage ++ ":" ++ env.ciCommitSHA, digest] ::
          (publishLoop eng env (pushContainer env now) pv tl (0 + 1)).1, ?_⟩
        simp only [publishLoop, hp]

/-- C7: the labels on the container of `pushImages` are, in this order and with
nothing else: `org.opencontainers.image.created` always, with the current time;
`org.opencontainers.image.title` with the project name exactly when the name is
non-empty; `org.opencontainers.image.source` with the project URL exactly when
the URL is non-empty; `org.opencontainers.image.revision` with the commit SHA
exactly when the SHA is non-empty. -/
theorem pushImages_labels (env : Env) (now : String) :
    (pushContainer env now).labels =
      [("org.opencontainers.image.created", now)] ++
        (if env.ciProjectName = "" then [] else [("org.opencontainers.image.title", env.ciProjectName)]) ++
        (if env.ciProjectURL = "" then [] else [("org.opencontainers.image.source", env.ciProjectURL)]) ++
        (if env.ciCommitSHA = "" then [] else [("org.opencontainers.image.revision", env.ciCommitSHA)]) := by
  unfold pushContainer
  dsimp only
  split_ifs <;> simp_all [Container.labels]

/-- C8: `buildImages` returns one container per publish platform
`linux/amd64`, `linux/arm64`, in that order; the container of a platform is
created for that platform, has the directory entry `<binary>-linux-<arch>` as
its file `/main`, with `<binary>` the configured binary name and `<arch>` the
architecture of the platform (`amd64`, `arm64`), and `/main` as entrypoint. -/
theorem buildImages_per_platform (build : Directory) :
    imagePlatforms = ["linux/amd64", "linux/arm64"] ∧
      imagePlatforms.map architectureOf = [some "amd64", some "arm64"] ∧
      buildImages build =
        some (List.zipWith
          (fun platform arch =>
            ((Container.new (some platform)).withFile "/main"
              (File.ofDirectory build (buildBinary ++ "-linux-" ++ arch))).withEntrypoint ["/main"])
          imagePlatforms ["amd64", "arm64"]) ∧
      buildImages build =
        some [((Container.new (some "linux/amd64")).withFile "/main"
                (File.ofDirectory build "main-linux-amd64")).withEntrypoint ["/main"],
              ((Container.new (some "linux/arm64")).withFile "/main"
                (File.ofDirectory build "main-linux-arm64")).withEntrypoint ["/main"]] := by
  refine ⟨rfl, by decide, rfl, rfl⟩

/-- C9: `build` runs connect, the binary build, the export of the binaries to
`./build`, the image build and `pushImages` in this order.  If connect fails,
nothing else is requested and its error is returned; if the export of the
binaries fails, no image export and no publish is requested and its error is
returned; otherwise the requests of `pushImages` follow and its result is
returned.  `build` returns `nil` exactly when connect, the export of the
binaries and `pushImages` all succeed. -/
theorem build_stops_at_first_error (eng : Engine) (env : Env) (now : String) :
    (∀ e, eng.connect = some e →
        build eng env now = ([Event.log "Building with Dagger" [], Event.connect], .returned (some e))) ∧
      (∀ e, eng.connect = none → eng.exportDirectory buildBinaries "./build" = some e →
        build eng env now =
          ([Event.log "Building with Dagger" [], Event.connect,
            Event.exportDirectory buildBinaries "./build", Event.close], .returned (some e))) ∧
      (eng.connect = none → eng.exportDirectory buildBinaries "./build" = none →
        build eng env now =
          ([Event.log "Building with Dagger" [], Event.connect,
              Event.exportDirectory buildBinaries "./build"] ++
            (pushImages eng env now builtImages).1 ++ [Event.close],
            .returned (pushImages eng env now builtImages).2)) ∧
      ((build eng env now).2 = .returned none ↔
        eng.connect = none ∧ eng.exportDirectory buildBinaries "./build" = none ∧
          (pushImages eng env now builtImages).2 = none) := by
  refine ⟨?_, ?_, ?_, ?_⟩
  · intro e hc
    simp [build, hc]
  · intro e hc hx
    simp [build, hc, hx]
  · intro hc hx
    simp [build, hc, hx, buildImages_buildBinaries]
  · cases hc : eng.connect with
    | some e => simp [build, hc]
    | none =>
      cases hx : eng.exportDirectory buildBinaries "./build" with
      | some e => simp [build, hc, hx]
      | none => simp [build, hc, hx, buildImages_buildBinaries]

theorem build_stops_at_first_error_witness :
    build noConnection featureEnv "2023-03-01 12:00:00 +0000 UTC" =
        ([Event.log "Building with Dagger" [], Event.connect], .returned (some "connection refused")) ∧
      build noDirectoryExport featureEnv "2023-03-01 12:00:00 +0000 UTC" =
        ([Event.log "Building with Dagger" [], Event.connect,
          Event.exportDirectory buildBinaries "./build", Event.close],
          .returned (some "read-only file system")) ∧
      build okEngine featureEnv "2023-03-01 12:00:00 +0000 UTC" =
        ([Event.log "Building with Dagger" [], Event.connect,
            Event.exportDirectory buildBinaries "./build"] ++
          (pushImages okEngine featureEnv "2023-03-01 12:00:00 +0000 UTC" builtImages).1 ++ [Event.close],
          .returned (pushImages okEngine featureEnv "2023-03-01 12:00:00 +0000 UTC" builtImages).2) ∧
      (build okEngine featureEnv "2023-03-01 12:00:00 +0000 UTC").2 = .returned none :=
  ⟨(build_stops_at_first_error noConnection featureEnv "2023-03-01 12:00:00 +0000 UTC").1
      "connection refused" rfl,
    (build_stops_at_first_error noDirectoryExport featureEnv "2023-03-01 12:00:00 +0000 UTC").2.1
      "read-only file system" rfl rfl,
    (build_stops_at_first_error okEngine featureEnv "2023-03-01 12:00:00 +0000 UTC").2.2.1 rfl rfl,
    (build_stops_at_first_error okEngine featureEnv "2023-03-01 12:00:00 +0000 UTC").2.2.2.2
      ⟨rfl, rfl, by decide⟩⟩

/-- C10: for every publish platform, the name `buildImages` looks up in the
directory, `main-linux-` followed by the architecture of the platform, is the
name of an entry of the directory `buildBinaries` returns. -/
theorem buildImages_lookup_present (platform : String) (hp : platform ∈ imagePlatforms) :
    ∃ arch, architectureOf platform = some arch ∧
      buildImage buildBinaries platform =
        some (((Container.new (some platform)).withFile "/main"
          (File.ofDirectory buildBinaries ("main-linux-" ++ arch))).withEntrypoint ["/main"]) ∧
      ("main-linux-" ++ arch) ∈ buildBinaries.entries.map Prod.fst ∧
      (lookupEntry buildBinaries.entries ("main-linux-" ++ arch)).isSome = true := by
  simp only [imagePlatforms, List.mem_cons, List.mem_singleton, List.not_mem_nil, or_false] at hp
  rcases hp with rfl | rfl
  · exact ⟨"amd64", by decide, rfl, by decide, by decide⟩
  · exact ⟨"arm64", by decide, rfl, by decide, by decide⟩

theorem buildImages_lookup_present_witness :
    "linux/arm64" ∈ imagePlatforms ∧
      ∃ arch, architectureOf "linux/arm64" = some arch ∧
        buildImage buildBinaries "linux/arm64" =
          some (((Container.new (some "linux/arm64")).withFile "/main"
            (File.ofDirectory buildBinaries ("main-linux-" ++ arch))).withEntrypoint ["/main"]) ∧
        ("main-linux-" ++ arch) ∈ buildBinaries.entries.map Prod.fst ∧
        (lookupEntry buildBinaries.entries ("main-linux-" ++ arch)).isSome = true :=
  ⟨by decide, buildImages_lookup_present "linux/arm64" (by decide)⟩

end CI
